import Mathlib

/-!
Verification of the `smallfile.py` workload engine (`SmallfileWorkload` class).

We give a shallow embedding of the pure parts of the code:
directory placement (`mk_seq_dir_name`, `mk_hashed_dir_name`, `mk_file_nm`),
the dispatch-loop stop condition (`do_another_file`) and test finalization
(`end_test`, `test_ended`), the pacing controller
(`adjust_pause_time`, `calculate_pause_time`), and buffer generation
(`create_biggest_buf`, `prepare_buf`).

Machine floats are modelled as rationals (worker timestamps) or reals
(pacing controller, whose throttling factor involves `log2`); Python integers
are `Nat`/`Int`; filesystem and clock effects are passed in explicitly as an
environment record; Python exceptions are `Except` values.
`os.sep` is taken to be `"/"` (POSIX).
-/

namespace Smallfile

/-! ## Class-level constants (smallfile.py lines 279-316, 520-532) -/

def ok : Nat := 0

def some_prime : Nat := 900593

def BYTES_PER_KB : Nat := 1024

def biggest_buf_size_bits : Nat := 20

def random_seg_size_bits : Nat := 10

def biggest_buf_size : Nat := 1 <<< biggest_buf_size_bits

def buf_offset_range : Nat := 1 <<< 10

def random_size_limit : Nat := 8

def fsdistr_fixed : Int := -1

def fsdistr_random_exponential : Int := 0

def pause_rsptime_count : Nat := 100

def pause_rsptime_unmeasured : Int := -11

def files_between_pause : Nat := 5

/-- Linux errno for "file exists". -/
def errno_EEXIST : Nat := 17

/-- Linux errno for "invalid argument". -/
def errno_EINVAL : Nat := 22

/-! ## Python string helpers used by the directory-placement code -/

/-- Python `str(n).zfill(3)`: decimal representation of `n`,
left-padded with zeros to width 3. -/
def zfill3 (n : Nat) : String :=
  let s := toString n
  if s.length < 3 then String.mk (List.replicate (3 - s.length) '0' ++ s.toList) else s

/-- Python `os.sep.join(pathlist)` with `os.sep = "/"`. -/
def sep_join : List String → String
  | [] => ""
  | [s] => s
  | s :: rest => s ++ "/" ++ sep_join rest

/-! ## Sequential (radix) directory placement: `mk_seq_dir_name` (lines 921-944) -/

/-- One path segment of the sequential tree: `"d_" + str(q).zfill(3)`. -/
def seq_dir_seg (q : Nat) : String := "d_" ++ zfill3 q

/-- First loop of `mk_seq_dir_name`: collect `level_dirs = [D, D^2, ...]`,
the powers of `dirs_per_dir` that are `≤ dir_in`, starting from `cur = D`.
The loop condition is the source's `dirs_for_this_level <= dir_in`; explicit
fuel makes the recursion structural — `mk_seq_dir_name` passes `dir_in + 1`,
which strictly exceeds the iteration count whenever `2 ≤ dirs_per_dir`
(established in `level_dirs_loop_eq`), so the fuel-exhausted branch is never
taken there.  (For `dirs_per_dir ≤ 1` the source loop does not terminate.) -/
def level_dirs_loop (dirs_per_dir dir_in : Nat) : Nat → Nat → List Nat
  | _, 0 => []
  | cur, fuel + 1 =>
    if cur ≤ dir_in then
      cur :: level_dirs_loop dirs_per_dir dir_in (cur * dirs_per_dir) fuel
    else []

/-- Second loop of `mk_seq_dir_name`: extract radix digits, consuming the
entries of `level_dirs` from the back (`level = levels-1` down to `0`),
then append the final remainder digit.  `dir_in - dir_in / p * p` is the
source's `dir_in = dir_in - quotient * dirs_in_level`. -/
def seq_dir_loop : Nat → List Nat → List Nat
  | dir_in, [] => [dir_in]
  | dir_in, p :: rest => dir_in / p :: seq_dir_loop (dir_in - dir_in / p * p) rest

/-- `SmallfileWorkload.mk_seq_dir_name` (lines 921-944). -/
def mk_seq_dir_name (files_per_dir dirs_per_dir file_num : Nat) : String :=
  let dir_in := file_num / files_per_dir
  let level_dirs := level_dirs_loop dirs_per_dir dir_in dirs_per_dir (dir_in + 1)
  sep_join ((seq_dir_loop dir_in level_dirs.reverse).map seq_dir_seg)

/-- The spec's "base-D digit expansion (most-significant digit first) ...
with at least one digit even when `n == 0`", via Mathlib's `Nat.digits`. -/
def radix_digits (D n : Nat) : List Nat :=
  if n = 0 then [0] else (Nat.digits D n).reverse

/-! ## Hashed directory placement: `mk_hashed_dir_name` (lines 946-954) -/

/-- One path segment of the hashed tree: `"h_" + str(q).zfill(3)`. -/
def hash_dir_seg (q : Nat) : String := "h_" ++ zfill3 q

/-- The `while dir_num > 1` loop of `mk_hashed_dir_name`, with
`pathlist.insert(0, ...)` modelled by consing onto the accumulator and
explicit fuel making the recursion structural — `mk_hashed_dir_name` passes
`dir_num + 1`, which strictly exceeds the iteration count whenever
`2 ≤ dirs_per_dir` (established in `hashed_dir_loop_eq`).  (The Python loop
never terminates when `dirs_per_dir = 1` and `dir_num > 1`, and raises
`ZeroDivisionError` when `dirs_per_dir = 0`.) -/
def hashed_dir_loop (dirs_per_dir : Nat) : Nat → List String → Nat → List String
  | _, pathlist, 0 => pathlist
  | dir_num, pathlist, fuel + 1 =>
    if 1 < dir_num then
      hashed_dir_loop dirs_per_dir (dir_num / dirs_per_dir)
        (hash_dir_seg (dir_num * some_prime % dirs_per_dir) :: pathlist) fuel
    else pathlist

/-- `SmallfileWorkload.mk_hashed_dir_name` (lines 946-954). -/
def mk_hashed_dir_name (files_per_dir dirs_per_dir iterations file_num : Nat) : String :=
  let random_hash := file_num * some_prime % iterations
  let dir_num := random_hash / files_per_dir
  sep_join (hashed_dir_loop dirs_per_dir dir_num [] (dir_num + 1))

/-- The spec's description of the hashed loop, written as structural
recursion on the directory number: while `d > 1`, a segment
`"h_" + zero-padded((d * LARGE_PRIME) mod D)` is prepended (so it ends up
in front of the segments produced later) and `d` is divided by `D`. -/
def hashed_spec_segs (dirs_per_dir d : Nat) : List String :=
  if h : 2 ≤ dirs_per_dir ∧ 1 < d then
    hashed_spec_segs dirs_per_dir (d / dirs_per_dir)
      ++ [hash_dir_seg (d * some_prime % dirs_per_dir)]
  else []
termination_by d
decreasing_by
  exact Nat.div_lt_self (Nat.lt_of_lt_of_le Nat.one_pos (Nat.le_of_lt h.2)) h.1

/-- `SmallfileWorkload.mk_file_nm` (lines 974-994): the full path is the
round-robin top directory, the cached per-index subdirectory path, and the
`prefix_host_tid_index_suffix` leaf name, joined by explicit separators. -/
def mk_file_nm (base_dirs file_dirs : List String)
    (pfx onhost tid sfx : String) (filenum : Nat) : String :=
  let tree := base_dirs.getD (filenum % base_dirs.length) ""
  String.join [tree, "/", file_dirs.getD filenum "", "/",
    pfx, "_", onhost, "_", tid, "_", toString filenum, "_", sfx]

/-! ## Worker state, `end_test`, `test_ended`, `do_another_file`
(smallfile.py lines 508-543, 842-911)

Timestamps are modelled as rationals.  The ambient filesystem and clock are
an explicit environment: `now` is what `time.time()` returns inside
`end_test`, `stonewall_exists` is what `os.path.exists(stonewall_path)`
returns, and `touch_error` is the outcome of the collaborator-provided
`touch` primitive (`none` = success, `some e` = `IOError` with errno `e`). -/

structure WorkerState where
  filenum : Nat
  filenum_final : Option Nat
  rq : Nat
  rq_final : Option Nat
  status : Nat
  abort : Bool
  start_time : ℚ
  end_time : Option ℚ
  elapsed_time : Option ℚ
  iterations : Nat
  stonewall : Bool
  finish_all_rq : Bool
  files_between_checks : Nat
  pause_sec : ℚ
deriving DecidableEq

structure SmfEnv where
  now : ℚ
  stonewall_exists : Bool
  touch_error : Option Nat
deriving DecidableEq

/-- The two `SMFRunException`s the modelled fragment can raise:
`myassert`'s "assertion failed!" and `do_another_file`'s "saw abort flag". -/
inductive SmfError where
  | assertionFailed : SmfError
  | sawAbortFlag : SmfError
deriving DecidableEq

instance {α β : Type} [DecidableEq α] [DecidableEq β] : DecidableEq (Except α β) :=
  fun a b =>
    match a, b with
    | .ok x, .ok y =>
      if h : x = y then isTrue (by rw [h]) else isFalse (by simp [h])
    | .error x, .error y =>
      if h : x = y then isTrue (by rw [h]) else isFalse (by simp [h])
    | .ok _, .error _ => isFalse (by intro hc; exact Except.noConfusion hc)
    | .error _, .ok _ => isFalse (by intro hc; exact Except.noConfusion hc)

/-- `myassert` (line 166): raise `SMFRunException` when the expression is false. -/
def myassert (b : Bool) : Except SmfError Unit :=
  if b then .ok () else .error .assertionFailed

/-- `SmallfileWorkload.test_ended` (lines 875-876):
`(self.end_time is not None) and (self.end_time > self.start_time)`. -/
def test_ended (s : WorkerState) : Bool :=
  match s.end_time with
  | none => false
  | some e => s.start_time < e

/-- `SmallfileWorkload.end_test` (lines 842-873).  Records final counters and
timing once, then creates the stonewall file if this worker reached its
iteration target, swallowing `EEXIST` and `EINVAL` from `touch` and recording
any other errno as the terminal status without re-raising. -/
def end_test (env : SmfEnv) (s : WorkerState) : Except SmfError WorkerState :=
  if test_ended s then .ok s
  else
    match myassert (decide (s.end_time = none ∧ s.rq_final = none ∧ s.filenum_final = none)) with
    | .error e => .error e
    | .ok _ =>
      let s1 : WorkerState :=
        { s with rq_final := some s.rq
               , filenum_final := some s.filenum
               , end_time := some env.now
               , elapsed_time := some (env.now - s.start_time) }
      if s1.iterations ≤ s1.filenum ∧ ¬ env.stonewall_exists then
        match env.touch_error with
        | none => .ok s1
        | some err =>
          if err ≠ errno_EEXIST then
            if err ≠ errno_EINVAL then .ok { s1 with status := err }
            else .ok s1
          else .ok s1
      else .ok s1

/-- The stonewall poll at the top of `do_another_file` (lines 882-894):
every `files_between_checks` files, look for the stonewall file and end the
test if it is present. -/
def stonewall_step (env : SmfEnv) (s : WorkerState) : Except SmfError WorkerState :=
  if s.stonewall ∧ (s.filenum + 1) % s.files_between_checks = 0 then
    (if env.stonewall_exists then end_test env s else .ok s)
  else .ok s

/-- The stop-condition cascade of `do_another_file` after the stonewall poll
(lines 898-911).  The pacing condition on line 909 is the source's
`self.iterations % self.files_between_pause == 0` — the iteration *target*,
not the current file index — and is embedded as written. -/
def do_another_file_core (env : SmfEnv) (s : WorkerState) :
    Except SmfError (Bool × WorkerState × Option ℚ) :=
  if ¬ s.finish_all_rq ∧ test_ended s then .ok (false, s, none)
  else if s.status ≠ ok then
    match end_test env s with
    | .error e => .error e
    | .ok s2 => .ok (false, s2, none)
  else if s.iterations ≤ s.filenum then
    match end_test env s with
    | .error e => .error e
    | .ok s2 => .ok (false, s2, none)
  else if s.abort then .error .sawAbortFlag
  else
    .ok (true, { s with filenum := s.filenum + 1 },
      if 0 < s.pause_sec ∧ s.iterations % files_between_pause = 0 then
        some (s.pause_sec * (files_between_pause : ℚ))
      else none)

/-- `SmallfileWorkload.do_another_file` (lines 881-911).  Returns whether one
more file should be processed, the updated state, and the duration of the
pacing sleep performed (if any). -/
def do_another_file (env : SmfEnv) (s0 : WorkerState) :
    Except SmfError (Bool × WorkerState × Option ℚ) :=
  match stonewall_step env s0 with
  | .error e => .error e
  | .ok s => do_another_file_core env s

/-- The `while self.do_another_file():` dispatch loop driving every operation
handler, with explicit fuel; returns the number of `true` results and the
final state.  Any fuel of at least `iterations - filenum + 1` suffices for
the configurations treated below. -/
def dispatch_loop (env : SmfEnv) : Nat → WorkerState → Except SmfError (Nat × WorkerState)
  | 0, s => .ok (0, s)
  | fuel + 1, s =>
    match do_another_file env s with
    | .error e => .error e
    | .ok (false, s2, _) => .ok (0, s2)
    | .ok (true, s2, _) =>
      match dispatch_loop env fuel s2 with
      | .error e => .error e
      | .ok (n, s3) => .ok (n + 1, s3)

/-! ## Pacing controller (smallfile.py lines 520-532, 649-713)

Float arithmetic is modelled over the reals; `math.log(x, 2)` is
`Real.logb 2 x`.  The controller state collects exactly the fields of
`SmallfileWorkload` the pacing code touches. -/

structure PacingState where
  pause_rsptime_index : Int
  pause_rsptime_history : List ℝ
  pause_sample_count : Nat
  pause_history_start_time : ℝ
  pause_sec : ℝ
  throttling_factor : ℝ
  total_threads : Nat
  pause_history_duration : ℝ

/-- The pacing fields as initialized by `reset` (lines 520-532):
the ring-buffer index starts at the unmeasured sentinel, the history is
all zeros, and `throttling_factor = 0.1 * log2(total_hosts * threads + 1)`. -/
noncomputable def reset_pacing (total_hosts threads : Nat)
    (pause_between_files pause_history_duration : ℝ) : PacingState :=
  { pause_rsptime_index := pause_rsptime_unmeasured
  , pause_rsptime_history := List.replicate pause_rsptime_count 0
  , pause_sample_count := 0
  , pause_history_start_time := 0
  , pause_sec := pause_between_files / 1000000
  , throttling_factor := 0.1 * Real.logb 2 ((total_hosts * threads : Nat) + 1)
  , total_threads := total_hosts * threads
  , pause_history_duration := pause_history_duration }

/-- `SmallfileWorkload.calculate_pause_time` (lines 649-661): Little's-law
estimate; only `pause_sec` changes. -/
noncomputable def calculate_pause_time (end_time : ℝ) (s : PacingState) : PacingState :=
  let mean_rsptime := s.pause_rsptime_history.sum / (pause_rsptime_count : ℝ)
  let time_so_far := end_time - s.pause_history_start_time
  let est_throughput := (s.pause_sample_count : ℝ) * (s.total_threads : ℝ) / time_so_far
  let mean_utilization := mean_rsptime * est_throughput
  let old_pause := s.pause_sec
  let new_pause := mean_utilization * mean_rsptime * s.throttling_factor
  { s with pause_sec := (old_pause + 2 * new_pause) / 3 }

open scoped Classical in
/-- `SmallfileWorkload.adjust_pause_time` (lines 681-713).  On the first
sample the whole ring buffer is seeded (the source's interim assignment
`self.pause_sec = 0.00001` is dead, being overwritten three lines later);
afterwards the sample is inserted at the cursor with wraparound and a
recalculation fires when `pause_history_start_time + pause_history_duration
< end_time` or `pause_sample_count > pause_rsptime_count / 2`. -/
noncomputable def adjust_pause_time (end_time rsp_time : ℝ) (s : PacingState) : PacingState :=
  if s.pause_rsptime_index = pause_rsptime_unmeasured then
    { s with pause_history_start_time := end_time - rsp_time
           , pause_rsptime_history := List.replicate pause_rsptime_count rsp_time
           , pause_rsptime_index := 1
           , pause_sample_count := 1
           , pause_sec := s.throttling_factor * rsp_time }
  else
    let idx1 : Int := s.pause_rsptime_index + 1
    let s2 : PacingState :=
      { s with pause_rsptime_history :=
                 s.pause_rsptime_history.set s.pause_rsptime_index.toNat rsp_time
             , pause_rsptime_index :=
                 if (pause_rsptime_count : Int) ≤ idx1 then 0 else idx1
             , pause_sample_count := s.pause_sample_count + 1 }
    if s2.pause_history_start_time + s2.pause_history_duration < end_time
       ∨ (pause_rsptime_count : ℝ) / 2 < (s2.pause_sample_count : ℝ) then
      let s3 := calculate_pause_time end_time s2
      { s3 with pause_history_start_time := end_time
              , pause_sample_count := 0 }
    else s2

/-! ## Buffer generation: `create_biggest_buf`, `prepare_buf`
(smallfile.py lines 999-1105)

Byte strings are lists of naturals; the thread's random generator is an
oracle `rand : Nat → Nat` consumed by position. -/

/-- The doubling loop `for j in range(0, next_power_2): biggest_buf.extend(biggest_buf[:])`. -/
def double_buf (l : List Nat) : Nat → List Nat
  | 0 => l
  | j + 1 => double_buf (l ++ l) j

/-- The incompressible extension loop after `j` iterations: starting from one
random byte, iteration `i` (1-based) appends `2^i` fresh random bytes. -/
def incompressible_buf (rand : Nat → Nat) : Nat → List Nat
  | 0 => [rand 0]
  | j + 1 => incompressible_buf rand j ++ (List.range (2 ^ (j + 1))).map rand

/-- `SmallfileWorkload.create_biggest_buf` (lines 999-1061): build the
`2^20`-byte pattern (compressible: a `2^10`-byte segment with `\x5c`
replaced by `!`, doubled ten times; incompressible: successive random
extensions of power-of-two lengths), then append a copy of the first
`buf_offset_range` bytes. -/
def create_biggest_buf (rand : Nat → Nat) (incompressible contents_random : Bool) :
    List Nat :=
  let biggest_buf : List Nat :=
    if ¬ incompressible then
      let seg : List Nat :=
        if contents_random then (List.range (1 <<< random_seg_size_bits)).map rand
        else (List.range (1 <<< random_seg_size_bits)).map (· % 128)
      let seg := seg.map (fun b => if b = 92 then 33 else b)
      double_buf seg (biggest_buf_size_bits - random_seg_size_bits)
    else
      incompressible_buf rand (biggest_buf_size_bits - 1) ++ [rand biggest_buf_size]
  biggest_buf ++ biggest_buf.take buf_offset_range

/-- The configuration fields read by `prepare_buf`; `tid_int` is
`int(self.tid)` when the thread id parses as an integer, `none` when the
parse raises `ValueError`. -/
structure BufConfig where
  record_sz_kb : Nat
  total_sz_kb : Nat
  filesize_distr : Int
  xattr_size : Nat
  xattr_count : Nat
  tid_int : Option Int
  filenum : Nat
deriving DecidableEq

/-- The `total_space` computed by `prepare_buf` (lines 1069-1086): the record
size (or the file size, possibly scaled by the random-size limit), capped at
`biggest_buf_size`, then overridden by `xattr_size + xattr_count` when that
is larger. -/
def prepare_buf_total_space (c : BufConfig) : Nat :=
  let total_space_kb :=
    if c.record_sz_kb = 0 then
      if c.filesize_distr ≠ fsdistr_fixed then c.total_sz_kb * random_size_limit
      else c.total_sz_kb
    else c.record_sz_kb
  let total_space := total_space_kb * BYTES_PER_KB
  let total_space := if biggest_buf_size < total_space then biggest_buf_size else total_space
  let total_xattr_space := c.xattr_size + c.xattr_count
  if total_space < total_xattr_space then total_xattr_space else total_space

/-- The `unique_offset` of `prepare_buf` (lines 1096-1100):
`((int(tid) + 1) * filenum) % 1024`, falling back to `filenum % 1024`
when the thread id is not numeric. -/
def prepare_buf_unique_offset (c : BufConfig) : Nat :=
  match c.tid_int with
  | some t => ((t + 1) * (c.filenum : Int) % (1 <<< 10 : Nat)).toNat
  | none => c.filenum % (1 <<< 10)

/-- `SmallfileWorkload.prepare_buf` (lines 1065-1105), reduced to its
observable outcome: either the bounds `myassert` on line 1101 fails, or the
prepared slice `biggest_buf[unique_offset : total_space + unique_offset]`
is returned. -/
def prepare_buf (c : BufConfig) (biggest_buf : List Nat) :
    Except SmfError (List Nat) :=
  let total_space := prepare_buf_total_space c
  let unique_offset := prepare_buf_unique_offset c
  match myassert (decide (total_space + unique_offset < biggest_buf.length)) with
  | .error e => .error e
  | .ok _ => .ok ((biggest_buf.drop unique_offset).take total_space)

/-! ## Auxiliary notions for the radix-placement proof -/

/-- Fixed-width base-`D` digit list of `n`, least-significant digit first. -/
def digitsFix (D : Nat) : Nat → Nat → List Nat
  | 0, _ => []
  | w + 1, n => n % D :: digitsFix D w (n / D)

/-- `[D^s, D^(s+1), ..., D^(s+k-1)]`: the shape of `level_dirs`. -/
def fwdPow (D s : Nat) : Nat → List Nat
  | 0 => []
  | k + 1 => D ^ s :: fwdPow D (s + 1) k

/-- `[D^k, ..., D^2, D^1]`: the reversed `level_dirs` consumed by the digit loop. -/
def revPow (D : Nat) : Nat → List Nat
  | 0 => []
  | k + 1 => D ^ (k + 1) :: revPow D k

end Smallfile

namespace Smallfile

theorem digitsFix_succ (D w n : Nat) :
    digitsFix D (w + 1) n = digitsFix D w n ++ [n / D ^ w % D] := by
  induction w generalizing n with
  | zero => simp [digitsFix]
  | succ w ih =>
    rw [digitsFix, ih (n / D), digitsFix]
    simp [Nat.div_div_eq_div_mul, ← Nat.pow_succ']

theorem digitsFix_mod_pow (D w n : Nat) :
    digitsFix D w (n % D ^ w) = digitsFix D w n := by
  induction w generalizing n with
  | zero => simp [digitsFix]
  | succ w ih =>
    rw [digitsFix, digitsFix]
    have h1 : n % D ^ (w + 1) % D = n % D :=
      Nat.mod_mod_of_dvd n (dvd_pow_self D (Nat.succ_ne_zero w))
    have h2 : n % D ^ (w + 1) / D = n / D % D ^ w := by
      rw [pow_succ']
      exact Nat.mod_mul_right_div_self n D (D ^ w)
    rw [h1, h2, ih]

/-- The remainder update of the digit loop is a mod. -/
theorem sub_div_mul_eq_mod (n p : Nat) : n - n / p * p = n % p :=
  Nat.sub_eq_of_eq_add (Nat.mod_add_div' n p).symm

/-- Processing the reversed power list `[D^L, ..., D^1]` extracts exactly the
fixed-width digit expansion of `n < D^(L+1)`, most-significant digit first. -/
theorem seq_dir_loop_revPow (D : Nat) (hD : 0 < D) :
    ∀ L n, n < D ^ (L + 1) →
      seq_dir_loop n (revPow D L) = (digitsFix D (L + 1) n).reverse := by
  intro L
  induction L with
  | zero =>
    intro n hn
    rw [pow_one] at hn
    simp [revPow, seq_dir_loop, digitsFix, Nat.mod_eq_of_lt hn]
  | succ L ih =>
    intro n hn
    rw [revPow, seq_dir_loop, sub_div_mul_eq_mod,
      ih (n % D ^ (L + 1)) (Nat.mod_lt n (pow_pos hD (L + 1))),
      digitsFix_mod_pow, digitsFix_succ D (L + 1) n, List.reverse_append]
    have hq : n / D ^ (L + 1) < D := by
      rw [Nat.div_lt_iff_lt_mul (pow_pos hD (L + 1))]
      calc n < D ^ (L + 1 + 1) := hn
        _ = D * D ^ (L + 1) := pow_succ' D (L + 1)
    simp [Nat.mod_eq_of_lt hq]

theorem fwdPow_snoc (D : Nat) : ∀ k s, fwdPow D s (k + 1) = fwdPow D s k ++ [D ^ (s + k)] := by
  intro k
  induction k with
  | zero => intro s; simp [fwdPow]
  | succ k ih =>
    intro s
    rw [fwdPow, ih (s + 1), fwdPow]
    simp [Nat.add_assoc, Nat.add_comm 1 k]

theorem fwdPow_reverse (D : Nat) : ∀ k, (fwdPow D 1 k).reverse = revPow D k := by
  intro k
  induction k with
  | zero => simp [fwdPow, revPow]
  | succ k ih =>
    rw [fwdPow_snoc, List.reverse_append, revPow, ← ih]
    simp [Nat.add_comm 1 k]

/-- With enough fuel, the first loop of `mk_seq_dir_name` produces exactly
the powers `[D^(j+1), ..., D^(log D n)]`. -/
theorem level_dirs_loop_eq (D n : Nat) (hD : 2 ≤ D) (hn : n ≠ 0) :
    ∀ k j fuel, k + j = Nat.log D n → k < fuel →
      level_dirs_loop D n (D ^ (j + 1)) fuel = fwdPow D (j + 1) k := by
  intro k
  induction k with
  | zero =>
    intro j fuel hj hfuel
    match fuel, hfuel with
    | fuel + 1, _ =>
      rw [level_dirs_loop, if_neg]
      · rfl
      · intro hle
        have := (Nat.pow_le_iff_le_log (by omega) hn).mp hle
        omega
  | succ k ih =>
    intro j fuel hj hfuel
    match fuel, hfuel with
    | fuel + 1, hfuel =>
      rw [level_dirs_loop,
        if_pos ((Nat.pow_le_iff_le_log (by omega) hn).mpr (by omega))]
      have hpow : D ^ (j + 1) * D = D ^ (j + 1 + 1) := (pow_succ D (j + 1)).symm
      rw [hpow, ih (j + 1) fuel (by omega) (by omega), fwdPow]

/-- The fixed-width digits of width `log D n + 1` are exactly `Nat.digits`. -/
theorem digitsFix_log_eq_digits (D : Nat) (hD : 2 ≤ D) :
    ∀ n, n ≠ 0 → digitsFix D (Nat.log D n + 1) n = Nat.digits D n := by
  intro n
  induction n using Nat.strong_induction_on with
  | _ n ih =>
    intro hn
    rw [digitsFix, Nat.digits_def' (by omega : 1 < D) (Nat.pos_of_ne_zero hn)]
    by_cases hsmall : n < D
    · have hlog : Nat.log D n = 0 := Nat.log_eq_zero_iff.mpr (Or.inl hsmall)
      have hdiv : n / D = 0 := Nat.div_eq_of_lt hsmall
      rw [hlog, hdiv]
      simp [digitsFix]
    · push_neg at hsmall
      have hdiv_ne : n / D ≠ 0 := by
        have := (Nat.one_le_div_iff (by omega : 0 < D)).mpr hsmall
        omega
      have hlt : n / D < n := Nat.div_lt_self (Nat.pos_of_ne_zero hn) (by omega)
      have hlog : Nat.log D n = Nat.log D (n / D) + 1 := by
        have h1 : Nat.log D (n / D) = Nat.log D n - 1 := Nat.log_div_base D n
        have h2 : 0 < Nat.log D n := Nat.log_pos (by omega) hsmall
        omega
      rw [hlog]
      exact congrArg _ (ih (n / D) hlt hdiv_ne)

/-- Composite: the two loops of `mk_seq_dir_name` compute the radix-D digit
expansion of `dir_in`, most-significant digit first. -/
theorem seq_loop_level_dirs (D n : Nat) (hD : 2 ≤ D) :
    seq_dir_loop n ((level_dirs_loop D n D (n + 1)).reverse) = radix_digits D n := by
  by_cases hn : n = 0
  · subst hn
    rw [level_dirs_loop, if_neg (by omega)]
    simp [seq_dir_loop, radix_digits]
  · have h1 : level_dirs_loop D n D (n + 1) = fwdPow D 1 (Nat.log D n) := by
      have h := level_dirs_loop_eq D n hD hn (Nat.log D n) 0 (n + 1) (by omega)
        (Nat.lt_succ_of_le (Nat.log_le_self D n))
      simpa using h
    rw [h1, fwdPow_reverse]
    rw [seq_dir_loop_revPow D (by omega) (Nat.log D n) n
      (Nat.lt_pow_succ_log_self (by omega) n)]
    rw [digitsFix_log_eq_digits D hD n hn, radix_digits, if_neg hn]

/-- `mk_seq_dir_name` as the spec states it: the base-D expansion of
`file_num // files_per_dir`, one zero-padded `d_` segment per digit. -/
theorem mk_seq_dir_name_eq_radix (files_per_dir dirs_per_dir file_num : Nat)
    (hD : 2 ≤ dirs_per_dir) :
    mk_seq_dir_name files_per_dir dirs_per_dir file_num =
      sep_join ((radix_digits dirs_per_dir (file_num / files_per_dir)).map seq_dir_seg) := by
  simp only [mk_seq_dir_name]
  rw [seq_loop_level_dirs dirs_per_dir (file_num / files_per_dir) hD]

/-- With enough fuel, the accumulator loop of `mk_hashed_dir_name` computes
the spec's prepend-recursion followed by the accumulator. -/
theorem hashed_dir_loop_eq (D : Nat) (hD : 2 ≤ D) :
    ∀ fuel d acc, d < fuel →
      hashed_dir_loop D d acc fuel = hashed_spec_segs D d ++ acc := by
  intro fuel
  induction fuel with
  | zero => intro d acc h; omega
  | succ fuel ih =>
    intro d acc h
    rw [hashed_dir_loop]
    by_cases h1 : 1 < d
    · rw [if_pos h1]
      have hrec : d / D < fuel := by
        have : d / D < d := Nat.div_lt_self (by omega) (by omega)
        omega
      have hspec : hashed_spec_segs D d =
          hashed_spec_segs D (d / D) ++ [hash_dir_seg (d * some_prime % D)] := by
        conv_lhs => rw [hashed_spec_segs]
        rw [dif_pos ⟨hD, h1⟩]
      rw [ih (d / D) _ hrec, hspec]
      simp
    · rw [if_neg h1, hashed_spec_segs, dif_neg (by tauto)]
      simp

/-- The base-D expansion always has at least one digit. -/
theorem radix_digits_ne_nil (D n : Nat) : radix_digits D n ≠ [] := by
  unfold radix_digits
  split
  · simp
  · next h => simp [Nat.digits_ne_nil_iff_ne_zero, h]

/-- Joining a list whose head is nonempty yields a nonempty string. -/
theorem sep_join_ne_empty (a : String) (l : List String) (ha : 0 < a.length) :
    sep_join (a :: l) ≠ "" := by
  cases l with
  | nil =>
    simp only [sep_join]
    intro hc
    rw [hc] at ha
    simp at ha
  | cons b t =>
    simp only [sep_join]
    intro hc
    have hlen := congrArg String.length hc
    simp [String.length_append] at hlen
    omega

/-- Every sequential path segment is a nonempty string. -/
theorem seq_dir_seg_length_pos (q : Nat) : 0 < (seq_dir_seg q).length := by
  have h2 : ("d_" : String).length = 2 := by decide
  have h : (seq_dir_seg q).length = 2 + (zfill3 q).length := by
    rw [seq_dir_seg, String.length_append, h2]
  omega

/-- Claim C1: sequential (radix) directory placement matches the spec's worked
examples — with files-per-dir 20 and dirs-per-dir 3, index 580 = 29·20 maps to
`d_001/d_000/d_000/d_002`, and with dirs-per-dir 7, index 6400 = 320·20 maps
to `d_006/d_003/d_005` — and for every index the result is the base-D digit
expansion (most-significant digit first) of `index // files_per_dir`, one
zero-padded `d_` segment per digit, with at least one segment even when the
quotient is 0. -/
theorem c1_seq_radix_placement :
    mk_seq_dir_name 20 3 580 = "d_001/d_000/d_000/d_002" ∧
    mk_seq_dir_name 20 7 6400 = "d_006/d_003/d_005" ∧
    ∀ files_per_dir dirs_per_dir file_num,
      2 ≤ dirs_per_dir → 0 < files_per_dir →
      mk_seq_dir_name files_per_dir dirs_per_dir file_num =
        sep_join ((radix_digits dirs_per_dir (file_num / files_per_dir)).map seq_dir_seg) ∧
      radix_digits dirs_per_dir (file_num / files_per_dir) ≠ [] := by
  refine ⟨by decide, by decide, fun fpd D idx hD _ => ?_⟩
  exact ⟨mk_seq_dir_name_eq_radix fpd D idx hD, radix_digits_ne_nil D (idx / fpd)⟩

/-- Witness for C1 at a concrete configuration (files-per-dir 20,
dirs-per-dir 3, index 0). -/
theorem c1_seq_radix_placement_witness :
    (2 ≤ 3 ∧ 0 < 20) ∧
    (mk_seq_dir_name 20 3 0 =
       sep_join ((radix_digits 3 (0 / 20)).map seq_dir_seg) ∧
     radix_digits 3 (0 / 20) ≠ []) :=
  ⟨⟨by decide, by decide⟩, c1_seq_radix_placement.2.2 20 3 0 (by decide) (by decide)⟩

/-- Claim C2: hashed directory placement matches the spec's worked example —
files-per-dir 5, dirs-per-dir 4, iterations 500 place index 499 under
`h_001/h_000/h_001` — and in general the path comes from
`h = (index * 900593) mod iterations`, `d = h // files_per_dir`, followed by
prepending a segment `h_` + zero-padded `(d * 900593) mod dirs_per_dir` and
dividing `d` by `dirs_per_dir` while `d > 1`. -/
theorem c2_hashed_placement :
    mk_hashed_dir_name 5 4 500 499 = "h_001/h_000/h_001" ∧
    ∀ files_per_dir dirs_per_dir iterations file_num,
      2 ≤ dirs_per_dir →
      mk_hashed_dir_name files_per_dir dirs_per_dir iterations file_num =
        sep_join (hashed_spec_segs dirs_per_dir
          (file_num * some_prime % iterations / files_per_dir)) := by
  refine ⟨by decide, fun fpd D iters idx hD => ?_⟩
  simp only [mk_hashed_dir_name]
  rw [hashed_dir_loop_eq D hD _ _ [] (Nat.lt_succ_self _)]
  simp

/-- Witness for C2 at the spec's own example configuration. -/
theorem c2_hashed_placement_witness :
    2 ≤ 4 ∧
    mk_hashed_dir_name 5 4 500 499 =
      sep_join (hashed_spec_segs 4 (499 * some_prime % 500 / 5)) :=
  ⟨by decide, c2_hashed_placement.2 5 4 500 499 (by decide)⟩

/-- Claim C10: in hashed mode the subdirectory path can be empty — whenever
`((index * 900593) mod iterations) // files_per_dir ≤ 1` (e.g. at index 0)
`mk_hashed_dir_name` returns `""`, and `mk_file_nm` then inserts a doubled
path separator between the top directory and the leaf name — whereas
sequential mode always emits at least one nonempty directory segment. -/
theorem c10_hashed_empty_subdir_path :
    (∀ files_per_dir dirs_per_dir iterations file_num,
       file_num * some_prime % iterations / files_per_dir ≤ 1 →
       mk_hashed_dir_name files_per_dir dirs_per_dir iterations file_num = "") ∧
    (∀ files_per_dir dirs_per_dir iterations, 0 < iterations →
       mk_hashed_dir_name files_per_dir dirs_per_dir iterations 0 = "") ∧
    (∀ base_dirs file_dirs pfx onhost tid sfx filenum,
       (file_dirs : List String).getD filenum "" = "" →
       mk_file_nm base_dirs file_dirs pfx onhost tid sfx filenum =
         base_dirs.getD (filenum % base_dirs.length) "" ++ "//" ++ pfx ++ "_" ++ onhost
           ++ "_" ++ tid ++ "_" ++ toString filenum ++ "_" ++ sfx) ∧
    (∀ files_per_dir dirs_per_dir file_num, 2 ≤ dirs_per_dir →
       mk_seq_dir_name files_per_dir dirs_per_dir file_num ≠ "") := by
  have hempty : ∀ fpd D iters idx,
      idx * some_prime % iters / fpd ≤ 1 →
      mk_hashed_dir_name fpd D iters idx = "" := by
    intro fpd D iters idx h
    simp only [mk_hashed_dir_name]
    rcases Nat.le_one_iff_eq_zero_or_eq_one.mp h with h0 | h1
    · rw [h0]; rfl
    · rw [h1]; rfl
  refine ⟨hempty, fun fpd D iters _ => hempty fpd D iters 0 (by simp), ?_, ?_⟩
  · intro base fds pfx host tid sfx n h
    have hsl : ("/" ++ "/" : String) = "//" := rfl
    simp only [mk_file_nm, String.join, List.foldl, h]
    simp only [String.append_assoc]
    simp
    rw [← String.append_assoc "/" "/", hsl]
  · intro fpd D idx hD
    rw [mk_seq_dir_name_eq_radix fpd D idx hD]
    rcases hq : radix_digits D (idx / fpd) with _ | ⟨d, rest⟩
    · exact absurd hq (radix_digits_ne_nil D (idx / fpd))
    · simpa using sep_join_ne_empty (seq_dir_seg d) (rest.map seq_dir_seg)
        (seq_dir_seg_length_pos d)

/-- Witness for C10: hashed index 0 under the spec's example configuration,
an explicit `mk_file_nm` call with an empty cached subdirectory, and a
sequential call that yields a nonempty path. -/
theorem c10_hashed_empty_subdir_path_witness :
    (0 * some_prime % 500 / 5 ≤ 1 ∧ mk_hashed_dir_name 5 4 500 0 = "") ∧
    (0 < 500 ∧ mk_hashed_dir_name 5 4 500 0 = "") ∧
    (([""] : List String).getD 0 "" = "" ∧
     mk_file_nm ["top"] [""] "p" "h" "00" "s" 0 =
       (["top"] : List String).getD (0 % (["top"] : List String).length) "" ++ "//"
         ++ "p" ++ "_" ++ "h" ++ "_" ++ "00" ++ "_" ++ toString 0 ++ "_" ++ "s") ∧
    (2 ≤ 4 ∧ mk_seq_dir_name 5 4 0 ≠ "") :=
  ⟨⟨by decide, c10_hashed_empty_subdir_path.1 5 4 500 0 (by decide)⟩,
   ⟨by decide, c10_hashed_empty_subdir_path.2.1 5 4 500 (by decide)⟩,
   ⟨by decide, c10_hashed_empty_subdir_path.2.2.1 ["top"] [""] "p" "h" "00" "s" 0 (by decide)⟩,
   ⟨by decide, c10_hashed_empty_subdir_path.2.2.2 5 4 0 (by decide)⟩⟩

/-- Claim C4 (divergence evidence): the pacing condition on line 909 tests
`iterations % files_between_pause`, which is constant over the run, not the
current file index.  With `iterations = 7` and `pause_sec = 1` the step from
index 4 to index 5 — a multiple of `files_between_pause = 5`, where the claim
says the sleep must happen — performs no sleep, while with `iterations = 10`
the step to index 1 — not a multiple of 5 — sleeps `pause_sec * 5`. -/
theorem c4_pause_divergence :
    do_another_file ⟨0, false, none⟩
      ⟨4, none, 0, none, 0, false, 0, none, none, 7, false, false, 20, 1⟩ =
      .ok (true, ⟨5, none, 0, none, 0, false, 0, none, none, 7, false, false, 20, 1⟩, none) ∧
    do_another_file ⟨0, false, none⟩
      ⟨0, none, 0, none, 0, false, 0, none, none, 10, false, false, 20, 1⟩ =
      .ok (true, ⟨1, none, 0, none, 0, false, 0, none, none, 10, false, false, 20, 1⟩,
        some (1 * (files_between_pause : ℚ))) ∧
    (1 : ℚ) * (files_between_pause : ℚ) = 5 :=
  ⟨rfl, rfl, by norm_num [files_between_pause]⟩

/-- Claim C7: `end_test` is idempotent — once `test_ended` holds, calling it
again returns the state unchanged and raises nothing. -/
theorem c7_end_test_idempotent (env : SmfEnv) (s : WorkerState)
    (h : test_ended s = true) : end_test env s = .ok s := by
  simp [end_test, h]

/-- Witness for C7 on a concrete already-ended worker state. -/
theorem c7_end_test_idempotent_witness :
    test_ended ⟨5, some 5, 7, some 7, 0, false, 1, some 2, some 1, 5, true, false, 20, 0⟩ = true ∧
    end_test ⟨3, false, none⟩
        ⟨5, some 5, 7, some 7, 0, false, 1, some 2, some 1, 5, true, false, 20, 0⟩ =
      .ok ⟨5, some 5, 7, some 7, 0, false, 1, some 2, some 1, 5, true, false, 20, 0⟩ :=
  ⟨by decide, c7_end_test_idempotent ⟨3, false, none⟩ _ (by decide)⟩

/-- Claim C8: when `end_test` attempts to create the stonewall file and
`touch` fails with errno `err`, the benign codes `EEXIST` (17) and
`EINVAL` (22) are swallowed with the status unchanged, and every other code
is recorded as the terminal status; in all cases `end_test` returns normally
rather than propagating the exception. -/
theorem c8_stonewall_errors (env : SmfEnv) (s : WorkerState) (err : Nat)
    (h1 : s.end_time = none) (h2 : s.rq_final = none) (h3 : s.filenum_final = none)
    (h4 : s.iterations ≤ s.filenum) (h5 : env.stonewall_exists = false)
    (h6 : env.touch_error = some err) :
    end_test env s = .ok
      { s with rq_final := some s.rq
             , filenum_final := some s.filenum
             , end_time := some env.now
             , elapsed_time := some (env.now - s.start_time)
             , status := if err = errno_EEXIST ∨ err = errno_EINVAL then s.status else err } := by
  have hte : test_ended s = false := by simp [test_ended, h1]
  rw [end_test, hte]
  simp only [Bool.false_eq_true, if_false, h1, h2, h3, myassert, decide_eq_true_eq]
  rw [if_pos ⟨trivial, trivial, trivial⟩]
  rw [if_pos ⟨h4, by simp [h5]⟩, h6]
  by_cases he : err = errno_EEXIST
  · simp [he, errno_EEXIST, errno_EINVAL]
  · by_cases hi : err = errno_EINVAL
    · simp [he, hi]
    · simp [he, hi]

/-- Witness for C8 with a permission-denied errno (13): the status becomes 13. -/
theorem c8_stonewall_errors_witness :
    ((⟨3, none, 0, none, 0, false, 1, none, none, 3, true, false, 20, 0⟩ :
        WorkerState).end_time = none ∧
     (⟨3, none, 0, none, 0, false, 1, none, none, 3, true, false, 20, 0⟩ :
        WorkerState).iterations ≤ 3 ∧
     ((⟨4, false, some 13⟩ : SmfEnv).stonewall_exists = false)) ∧
    end_test ⟨4, false, some 13⟩
        ⟨3, none, 0, none, 0, false, 1, none, none, 3, true, false, 20, 0⟩ =
      .ok { (⟨3, none, 0, none, 0, false, 1, none, none, 3, true, false, 20, 0⟩ :
               WorkerState) with
            rq_final := some 0, filenum_final := some 3, end_time := some 4,
            elapsed_time := some ((4 : ℚ) - 1),
            status := if (13 : Nat) = errno_EEXIST ∨ (13 : Nat) = errno_EINVAL then 0 else 13 } :=
  ⟨⟨by decide, by decide, by decide⟩,
   c8_stonewall_errors ⟨4, false, some 13⟩ _ 13 (by decide) (by decide) (by decide)
     (by decide) (by decide) (by decide)⟩

/-- A worker whose counters were never finalized finishes `end_test` without
raising, with the final file count recorded from the current index. -/
theorem end_test_ok (env : SmfEnv) (s : WorkerState)
    (h1 : s.end_time = none) (h2 : s.rq_final = none) (h3 : s.filenum_final = none) :
    ∃ s2, end_test env s = .ok s2 ∧ s2.filenum_final = some s.filenum ∧
      s2.filenum = s.filenum ∧ s2.end_time = some env.now := by
  have hte : test_ended s = false := by simp [test_ended, h1]
  rw [end_test, hte]
  simp only [Bool.false_eq_true, if_false, h1, h2, h3, myassert, decide_eq_true_eq]
  rw [if_pos ⟨trivial, trivial, trivial⟩]
  by_cases hcond : s.iterations ≤ s.filenum ∧ ¬ env.stonewall_exists = true
  · rw [if_pos hcond]
    cases henv : env.touch_error with
    | none => exact ⟨_, rfl, rfl, rfl, rfl⟩
    | some err =>
      dsimp only
      by_cases he : err ≠ errno_EEXIST
      · rw [if_pos he]
        by_cases hi : err ≠ errno_EINVAL
        · rw [if_pos hi]
          exact ⟨_, rfl, rfl, rfl, rfl⟩
        · rw [if_neg hi]
          exact ⟨_, rfl, rfl, rfl, rfl⟩
      · rw [if_neg he]
        exact ⟨_, rfl, rfl, rfl, rfl⟩
  · rw [if_neg hcond]
    exact ⟨_, rfl, rfl, rfl, rfl⟩

/-- When the stonewall file is absent, the stonewall poll changes nothing. -/
theorem stonewall_step_absent (env : SmfEnv) (s : WorkerState)
    (henv : env.stonewall_exists = false) :
    stonewall_step env s = .ok s := by
  rw [stonewall_step, henv]
  split <;> simp

/-- A running worker below its iteration target takes one more file:
`do_another_file` answers `true` and bumps only `filenum`. -/
theorem do_another_file_run (env : SmfEnv) (s : WorkerState)
    (henv : env.stonewall_exists = false) (h1 : s.end_time = none)
    (h4 : s.status = ok) (h5 : s.abort = false)
    (hlt : s.filenum < s.iterations) :
    ∃ sl, do_another_file env s = .ok (true, { s with filenum := s.filenum + 1 }, sl) := by
  have hte : test_ended s = false := by simp [test_ended, h1]
  rw [do_another_file, stonewall_step_absent env s henv]
  simp only [do_another_file_core]
  rw [if_neg (by simp [hte]), if_neg (by simp [h4]), if_neg (by omega),
    if_neg (by simp [h5])]
  exact ⟨_, rfl⟩

/-- A running worker at its iteration target stops: `do_another_file` calls
`end_test` and answers `false`, recording `filenum_final`. -/
theorem do_another_file_stop (env : SmfEnv) (s : WorkerState)
    (henv : env.stonewall_exists = false) (h1 : s.end_time = none)
    (h2 : s.rq_final = none) (h3 : s.filenum_final = none)
    (h4 : s.status = ok) (hge : s.iterations ≤ s.filenum) :
    ∃ s2, do_another_file env s = .ok (false, s2, none) ∧
      s2.filenum_final = some s.filenum := by
  have hte : test_ended s = false := by simp [test_ended, h1]
  obtain ⟨s2, hend, hff, _, _⟩ := end_test_ok env s h1 h2 h3
  rw [do_another_file, stonewall_step_absent env s henv]
  simp only [do_another_file_core]
  rw [if_neg (by simp [hte]), if_neg (by simp [h4]), if_pos hge, hend]
  exact ⟨s2, rfl, hff⟩

/-- With fuel one more than the remaining files, the dispatch loop counts
exactly the remaining `iterations - filenum` successful steps and the final
state records `filenum_final = iterations`. -/
theorem dispatch_loop_exact (env : SmfEnv) (henv : env.stonewall_exists = false) :
    ∀ fuel s, s.end_time = none → s.rq_final = none → s.filenum_final = none →
      s.status = ok → s.abort = false → s.filenum ≤ s.iterations →
      s.iterations ≤ s.filenum + fuel →
      ∃ s2, dispatch_loop env (fuel + 1) s = .ok (s.iterations - s.filenum, s2) ∧
        s2.filenum_final = some s.iterations := by
  intro fuel
  induction fuel with
  | zero =>
    intro s h1 h2 h3 h4 h5 hub hlb
    have heq : s.iterations = s.filenum := by omega
    obtain ⟨s2, hda, hff⟩ := do_another_file_stop env s henv h1 h2 h3 h4 (by omega)
    refine ⟨s2, ?_, by rw [hff, heq]⟩
    rw [dispatch_loop, hda]
    dsimp only
    rw [heq, Nat.sub_self]
  | succ fuel ih =>
    intro s h1 h2 h3 h4 h5 hub hlb
    by_cases hlt : s.filenum < s.iterations
    · obtain ⟨sl, hda⟩ := do_another_file_run env s henv h1 h4 h5 hlt
      obtain ⟨s2, hloop, hff⟩ := ih { s with filenum := s.filenum + 1 }
        h1 h2 h3 h4 h5 (by simpa using hlt) (by simp; omega)
      refine ⟨s2, ?_, by simpa using hff⟩
      rw [dispatch_loop, hda]
      dsimp only
      rw [hloop]
      have harith : s.iterations - (s.filenum + 1) + 1 = s.iterations - s.filenum := by
        omega
      simp only [harith]
    · have heq : s.iterations = s.filenum := by omega
      obtain ⟨s2, hda, hff⟩ := do_another_file_stop env s henv h1 h2 h3 h4 (by omega)
      refine ⟨s2, ?_, by rw [hff, heq]⟩
      rw [dispatch_loop, hda]
      dsimp only
      rw [heq, Nat.sub_self]

/-- Claim C3: with iteration target `N`, no stonewall signal, no abort, and
status still OK, the dispatch loop gets `true` from `do_another_file` exactly
`N` times (the loop's success count is `N`), and after it ends the recorded
final file index `filenum_final` equals `N`. -/
theorem c3_dispatch_exact_iterations (env : SmfEnv) (s : WorkerState)
    (henv : env.stonewall_exists = false) (h0 : s.filenum = 0)
    (h1 : s.end_time = none) (h2 : s.rq_final = none) (h3 : s.filenum_final = none)
    (h4 : s.status = ok) (h5 : s.abort = false) :
    ∃ s2, dispatch_loop env (s.iterations + 1) s = .ok (s.iterations, s2) ∧
      s2.filenum_final = some s.iterations := by
  obtain ⟨s2, hloop, hff⟩ := dispatch_loop_exact env henv s.iterations s
    h1 h2 h3 h4 h5 (by omega) (by omega)
  exact ⟨s2, by rw [hloop, h0, Nat.sub_zero], hff⟩

/-- Witness for C3: a fresh worker with 3 iterations performs exactly 3 units
of work and records `filenum_final = 3`. -/
theorem c3_dispatch_exact_iterations_witness :
    ((⟨0, none, 0, none, 0, false, 0, none, none, 3, true, false, 20, 0⟩ :
        WorkerState).filenum = 0 ∧
     (⟨5, false, none⟩ : SmfEnv).stonewall_exists = false) ∧
    ∃ s2, dispatch_loop ⟨5, false, none⟩ (3 + 1)
        ⟨0, none, 0, none, 0, false, 0, none, none, 3, true, false, 20, 0⟩ =
        .ok (3, s2) ∧ s2.filenum_final = some 3 :=
  ⟨⟨by decide, by decide⟩,
   c3_dispatch_exact_iterations ⟨5, false, none⟩
     ⟨0, none, 0, none, 0, false, 0, none, none, 3, true, false, 20, 0⟩
     (by decide) (by decide) (by decide) (by decide) (by decide) (by decide) (by decide)⟩

/-- Claim C5: on the first measured response time (ring-buffer index still at
the unmeasured sentinel, as after `reset`), the pacing controller seeds every
slot of the ring buffer with `r`, sets the window start to `end_time - r`,
and sets the pause to `throttling_factor * r`, where
`throttling_factor = 0.1 * log2(total_hosts * threads + 1)`. -/
theorem c5_first_sample_seeds_controller (total_hosts threads : Nat)
    (pause_between_files pause_history_duration end_time rsp_time : ℝ) :
    (reset_pacing total_hosts threads pause_between_files
        pause_history_duration).pause_rsptime_index = pause_rsptime_unmeasured ∧
    (adjust_pause_time end_time rsp_time
        (reset_pacing total_hosts threads pause_between_files
          pause_history_duration)).pause_rsptime_history =
      List.replicate pause_rsptime_count rsp_time ∧
    (adjust_pause_time end_time rsp_time
        (reset_pacing total_hosts threads pause_between_files
          pause_history_duration)).pause_history_start_time = end_time - rsp_time ∧
    (adjust_pause_time end_time rsp_time
        (reset_pacing total_hosts threads pause_between_files
          pause_history_duration)).pause_sec =
      (0.1 * Real.logb 2 ((total_hosts * threads : Nat) + 1)) * rsp_time := by
  refine ⟨rfl, ?_, ?_, ?_⟩ <;>
    simp [adjust_pause_time, reset_pacing]

/-- The post-insertion state of `adjust_pause_time`'s non-first-sample path:
the sample is written at the cursor, the cursor advances with wraparound,
and the sample count is incremented. -/
def pacing_insert (rsp_time : ℝ) (s : PacingState) : PacingState :=
  { s with pause_rsptime_history :=
             s.pause_rsptime_history.set s.pause_rsptime_index.toNat rsp_time
         , pause_rsptime_index :=
             if (pause_rsptime_count : Int) ≤ s.pause_rsptime_index + 1 then 0
             else s.pause_rsptime_index + 1
         , pause_sample_count := s.pause_sample_count + 1 }

/-- Claim C6 (amended): for every pacing-controller state after the first
sample, a recalculation is triggered exactly when the window has been open
for *strictly more* than `pause_history_duration` (the source tests
`start + duration < end_time`) or the sample count exceeds half the ring
size; the recalculation takes `mean_r` = ring-buffer average,
`throughput_est = samples * total_threads / window_elapsed`,
`utilization = mean_r * throughput_est`,
`new_pause = utilization * mean_r * throttling_factor`, updates the pause to
`(old + 2 * new_pause) / 3`, and resets the window start and sample count. -/
theorem c6_recalculation_window (s : PacingState) (end_time rsp_time : ℝ)
    (h : s.pause_rsptime_index ≠ pause_rsptime_unmeasured) :
    adjust_pause_time end_time rsp_time s =
      if (pacing_insert rsp_time s).pause_history_start_time
           + (pacing_insert rsp_time s).pause_history_duration < end_time
         ∨ (pause_rsptime_count : ℝ) / 2 <
             ((pacing_insert rsp_time s).pause_sample_count : ℝ) then
        { pacing_insert rsp_time s with
          pause_sec :=
            ((pacing_insert rsp_time s).pause_sec +
              2 * (((pacing_insert rsp_time s).pause_rsptime_history.sum /
                      (pause_rsptime_count : ℝ)) *
                    (((pacing_insert rsp_time s).pause_sample_count : ℝ) *
                        ((pacing_insert rsp_time s).total_threads : ℝ) /
                      (end_time - (pacing_insert rsp_time s).pause_history_start_time)) *
                    ((pacing_insert rsp_time s).pause_rsptime_history.sum /
                      (pause_rsptime_count : ℝ)) *
                    (pacing_insert rsp_time s).throttling_factor)) / 3
        , pause_history_start_time := end_time
        , pause_sample_count := 0 }
      else pacing_insert rsp_time s := by
  rw [adjust_pause_time, if_neg h]
  rfl

/-- Witness for C6 on a concrete mid-run controller state. -/
theorem c6_recalculation_window_witness :
    ((⟨3, List.replicate 100 (1 : ℝ), 7, 0, 0, 1, 1, 1⟩ :
        PacingState).pause_rsptime_index ≠ pause_rsptime_unmeasured) ∧
    (adjust_pause_time 2 1 (⟨3, List.replicate 100 (1 : ℝ), 7, 0, 0, 1, 1, 1⟩ : PacingState) =
      if (pacing_insert 1 ⟨3, List.replicate 100 (1 : ℝ), 7, 0, 0, 1, 1, 1⟩).pause_history_start_time
           + (pacing_insert 1 ⟨3, List.replicate 100 (1 : ℝ), 7, 0, 0, 1, 1, 1⟩).pause_history_duration < 2
         ∨ (pause_rsptime_count : ℝ) / 2 <
             ((pacing_insert 1 ⟨3, List.replicate 100 (1 : ℝ), 7, 0, 0, 1, 1, 1⟩).pause_sample_count : ℝ) then
        { pacing_insert 1 ⟨3, List.replicate 100 (1 : ℝ), 7, 0, 0, 1, 1, 1⟩ with
          pause_sec :=
            ((pacing_insert 1 ⟨3, List.replicate 100 (1 : ℝ), 7, 0, 0, 1, 1, 1⟩).pause_sec +
              2 * (((pacing_insert 1 ⟨3, List.replicate 100 (1 : ℝ), 7, 0, 0, 1, 1, 1⟩).pause_rsptime_history.sum /
                      (pause_rsptime_count : ℝ)) *
                    (((pacing_insert 1 ⟨3, List.replicate 100 (1 : ℝ), 7, 0, 0, 1, 1, 1⟩).pause_sample_count : ℝ) *
                        ((pacing_insert 1 ⟨3, List.replicate 100 (1 : ℝ), 7, 0, 0, 1, 1, 1⟩).total_threads : ℝ) /
                      (2 - (pacing_insert 1 ⟨3, List.replicate 100 (1 : ℝ), 7, 0, 0, 1, 1, 1⟩).pause_history_start_time)) *
                    ((pacing_insert 1 ⟨3, List.replicate 100 (1 : ℝ), 7, 0, 0, 1, 1, 1⟩).pause_rsptime_history.sum /
                      (pause_rsptime_count : ℝ)) *
                    (pacing_insert 1 ⟨3, List.replicate 100 (1 : ℝ), 7, 0, 0, 1, 1, 1⟩).throttling_factor)) / 3
        , pause_history_start_time := 2
        , pause_sample_count := 0 }
      else pacing_insert 1 ⟨3, List.replicate 100 (1 : ℝ), 7, 0, 0, 1, 1, 1⟩) :=
  ⟨by decide, c6_recalculation_window ⟨3, List.replicate 100 (1 : ℝ), 7, 0, 0, 1, 1, 1⟩ 2 1
    (by decide)⟩

/-- Counterexample to C6 as stated: with the window open for *exactly*
`pause_history_duration` (claimed sufficient: "at least") and a small sample
count, the source does not recalculate — the sample count is not reset and
the window start keeps its old value. -/
theorem c6_at_least_boundary_counterexample :
    ((⟨0, List.replicate 100 (1 : ℝ), 0, 0, 0, 1, 1, 1⟩ :
        PacingState).pause_rsptime_index ≠ pause_rsptime_unmeasured) ∧
    (1 : ℝ) - (⟨0, List.replicate 100 (1 : ℝ), 0, 0, 0, 1, 1, 1⟩ :
        PacingState).pause_history_start_time ≥
      (⟨0, List.replicate 100 (1 : ℝ), 0, 0, 0, 1, 1, 1⟩ :
        PacingState).pause_history_duration ∧
    ¬ ((pause_rsptime_count : ℝ) / 2 <
        ((⟨0, List.replicate 100 (1 : ℝ), 0, 0, 0, 1, 1, 1⟩ :
            PacingState).pause_sample_count + 1 : ℝ)) ∧
    (adjust_pause_time 1 1
        (⟨0, List.replicate 100 (1 : ℝ), 0, 0, 0, 1, 1, 1⟩ : PacingState)).pause_sample_count = 1 ∧
    (adjust_pause_time 1 1
        (⟨0, List.replicate 100 (1 : ℝ), 0, 0, 0, 1, 1, 1⟩ : PacingState)).pause_history_start_time = 0 := by
  refine ⟨by decide, by norm_num, by norm_num [pause_rsptime_count], ?_, ?_⟩ <;>
  · rw [adjust_pause_time, if_neg (by decide)]
    rw [if_neg (by push_neg; constructor <;> norm_num [pause_rsptime_count])]

/-- The self-doubling loop multiplies the length by `2^j`. -/
theorem double_buf_length (l : List Nat) : ∀ j, (double_buf l j).length = 2 ^ j * l.length := by
  intro j
  induction j generalizing l with
  | zero => simp [double_buf]
  | succ j ih =>
    rw [double_buf, ih (l ++ l)]
    simp [List.length_append]
    ring

/-- The incompressible extension loop reaches length `2^(j+1) - 1`. -/
theorem incompressible_buf_length (rand : Nat → Nat) :
    ∀ j, (incompressible_buf rand j).length = 2 ^ (j + 1) - 1 := by
  intro j
  induction j with
  | zero => simp [incompressible_buf]
  | succ j ih =>
    rw [incompressible_buf]
    simp only [List.length_append, List.length_map, List.length_range, ih]
    have h1 : 1 ≤ 2 ^ (j + 1) := Nat.one_le_two_pow
    have h2 : 2 ^ (j + 2) = 2 ^ (j + 1) * 2 := pow_succ 2 (j + 1)
    omega

/-- `create_biggest_buf` produces exactly `2^20 + 1024` bytes, as the source
asserts on line 1060. -/
theorem create_biggest_buf_length (rand : Nat → Nat) (incompressible contents_random : Bool) :
    (create_biggest_buf rand incompressible contents_random).length =
      biggest_buf_size + buf_offset_range := by
  have hcore : ∀ big : List Nat, big.length = 2 ^ 20 →
      (big ++ big.take buf_offset_range).length = biggest_buf_size + buf_offset_range := by
    intro big hbig
    rw [List.length_append, List.length_take, hbig]
    decide
  simp only [create_biggest_buf]
  by_cases hinc : incompressible
  · rw [if_neg (by simp [hinc])]
    apply hcore
    rw [List.length_append, incompressible_buf_length]
    simp only [List.length_cons, List.length_nil]
    decide
  · rw [if_pos (by simp [hinc])]
    apply hcore
    rw [double_buf_length, List.length_map]
    by_cases hcr : contents_random
    · rw [if_pos (by simp [hcr]), List.length_map, List.length_range]
      decide
    · rw [if_neg (by simp [hcr]), List.length_map, List.length_range]
      decide

/-- The `total_space` of `prepare_buf` never exceeds the generator's buffer
size as long as the xattr space fits in it. -/
theorem prepare_buf_total_space_le (c : BufConfig)
    (hx : c.xattr_size + c.xattr_count ≤ biggest_buf_size) :
    prepare_buf_total_space c ≤ biggest_buf_size := by
  simp only [prepare_buf_total_space]
  repeat' split
  all_goals omega

/-- The `unique_offset` of `prepare_buf` is always below `1024`. -/
theorem prepare_buf_unique_offset_lt (c : BufConfig) :
    prepare_buf_unique_offset c < 1024 := by
  rw [prepare_buf_unique_offset]
  cases htid : c.tid_int with
  | none =>
    dsimp only
    have : (1 <<< 10 : Nat) = 1024 := by decide
    rw [this]
    exact Nat.mod_lt _ (by omega)
  | some t =>
    dsimp only
    have h1 : (0 : Int) ≤ (t + 1) * (c.filenum : Int) % (1 <<< 10 : Nat) :=
      Int.emod_nonneg _ (by decide)
    have h2 : (t + 1) * (c.filenum : Int) % (1 <<< 10 : Nat) < 1024 :=
      Int.emod_lt_of_pos _ (by decide)
    omega

/-- Claim C9 (amended): for every configuration whose extended-attribute
space `xattr_size + xattr_count` does not exceed the generator's buffer size
`2^20`, every file index, and every thread id, the slice prepared by
`prepare_buf` stays inside the generated buffer: the unique offset is below
1024, `total_space + unique_offset` is strictly below the length of
`biggest_buf` (which is `2^20 + 1024`), and the bounds assertion passes. -/
theorem c9_prepare_buf_in_bounds (c : BufConfig) (rand : Nat → Nat)
    (incompressible contents_random : Bool)
    (hx : c.xattr_size + c.xattr_count ≤ biggest_buf_size) :
    (create_biggest_buf rand incompressible contents_random).length =
      biggest_buf_size + buf_offset_range ∧
    prepare_buf_unique_offset c < 1024 ∧
    prepare_buf_total_space c + prepare_buf_unique_offset c <
      (create_biggest_buf rand incompressible contents_random).length ∧
    prepare_buf c (create_biggest_buf rand incompressible contents_random) =
      .ok (((create_biggest_buf rand incompressible contents_random).drop
              (prepare_buf_unique_offset c)).take (prepare_buf_total_space c)) := by
  have hlen := create_biggest_buf_length rand incompressible contents_random
  have hoff := prepare_buf_unique_offset_lt c
  have hts := prepare_buf_total_space_le c hx
  have hbor : buf_offset_range = 1024 := by decide
  have hbound : prepare_buf_total_space c + prepare_buf_unique_offset c <
      (create_biggest_buf rand incompressible contents_random).length := by
    omega
  refine ⟨hlen, hoff, hbound, ?_⟩
  rw [prepare_buf]
  rw [myassert, if_pos (by simpa using hbound)]

/-- Witness for C9 at the source's default configuration
(record size 0, file size 64KB, fixed distribution, no xattrs, thread id
"00", file index 3). -/
theorem c9_prepare_buf_in_bounds_witness :
    ((⟨0, 64, -1, 0, 0, some 0, 3⟩ : BufConfig).xattr_size +
       (⟨0, 64, -1, 0, 0, some 0, 3⟩ : BufConfig).xattr_count ≤ biggest_buf_size) ∧
    ((create_biggest_buf (fun _ => 0) false false).length =
       biggest_buf_size + buf_offset_range ∧
     prepare_buf_unique_offset ⟨0, 64, -1, 0, 0, some 0, 3⟩ < 1024 ∧
     prepare_buf_total_space ⟨0, 64, -1, 0, 0, some 0, 3⟩ +
       prepare_buf_unique_offset ⟨0, 64, -1, 0, 0, some 0, 3⟩ <
       (create_biggest_buf (fun _ => 0) false false).length ∧
     prepare_buf ⟨0, 64, -1, 0, 0, some 0, 3⟩ (create_biggest_buf (fun _ => 0) false false) =
       .ok (((create_biggest_buf (fun _ => 0) false false).drop
               (prepare_buf_unique_offset ⟨0, 64, -1, 0, 0, some 0, 3⟩)).take
             (prepare_buf_total_space ⟨0, 64, -1, 0, 0, some 0, 3⟩))) :=
  ⟨by decide,
   c9_prepare_buf_in_bounds ⟨0, 64, -1, 0, 0, some 0, 3⟩ (fun _ => 0) false false (by decide)⟩

/-- Counterexample to C9 as stated: with `xattr_size = 2^20 + 1024` (and no
other bound in the source), the xattr override makes `total_space` equal to
the full buffer length, so `total_space + unique_offset < len(biggest_buf)`
is false and the `myassert` on line 1101 fails. -/
theorem c9_xattr_overflow_counterexample :
    ¬ (prepare_buf_total_space ⟨1, 64, -1, 1049600, 0, some 0, 0⟩ +
         prepare_buf_unique_offset ⟨1, 64, -1, 1049600, 0, some 0, 0⟩ <
       biggest_buf_size + buf_offset_range) := by
  decide

end Smallfile
